import Mathlib

/-!
Verification of the GM-Simulator roster construction and win-projection
engine against its specification.

The embedding below models, over exact rationals, the code in
dashboard.py (add_players, modify_button, update_machinelearning),
team_projections.py (get_team_stats, run_ml and the column setup of
analyze_team, GM_COLS, AVERAGED_STATS) and data_cleaning.py
(condense_positions, to_millions).  Missing numeric values (NaN) are
modelled as none; pandas skip-missing sums and means are modelled
explicitly.  Python round is banker rounding (round half to even),
modelled by pyRound.
-/

/-- Python round(q) on an exact rational: round half to even. -/
def pyRound (q : ℚ) : ℤ :=
  let f := ⌊q⌋
  let r := q - f
  if r < 1/2 then f
  else if 1/2 < r then f + 1
  else if f % 2 = 0 then f else f + 1

/-- Python round(q, 1): round to one decimal place, half to even. -/
def round1 (q : ℚ) : ℚ := (pyRound (q * 10) : ℚ) / 10

/-- A rational that is a whole number of tenths, as produced by the
one-decimal Cap Hit strings of the form $X.Xm. -/
def Tenths (q : ℚ) : Prop := ∃ k : ℤ, q = (k : ℚ) / 10

/-! ## Roster Ledger: dashboard.py -/

/-- SALARY = 150, dashboard.py line 15. -/
def SALARY : ℚ := 150

/-- One row of the team_datatable: the player row id, the parsed Cap Hit
value in millions, and the Status cell. -/
structure TeamRow where
  rid : Nat
  cap : ℚ
  status : String
deriving DecidableEq

/-- The dashboard state touched by the roster callbacks: team_df, the
Status column of player_df (keyed by row id), and the salary_display
value. -/
structure GMState where
  team : List TeamRow
  pstatus : Nat → String
  salaryDisp : ℚ

/-- salaries = sum of the parsed Cap Hit values of team_df
(dashboard.py line 520). -/
def teamCaps (team : List TeamRow) : ℚ := (team.map (·.cap)).sum

/-- The row ids of the team table. -/
def teamRids (team : List TeamRow) : List Nat := team.map (·.rid)

/-- team_df[Status] = REMOVE (dashboard.py line 532). -/
def setRemove (team : List TeamRow) : List TeamRow :=
  team.map (fun r => { r with status := ("REMOVE") })

/-- add_players (dashboard.py lines 499-537) for a click on the Status
cell of row rid.  pool gives the parsed Cap Hit of every player row of
player_df.  The ADD branch rejects the insertion when it would overdraw
the budget; the REMOVE branch drops the rows labelled rid (pandas drop
by label; from the initial state a REMOVE status implies membership, so
the pandas KeyError path is unreachable).  Every branch finally sets the
team Status column to REMOVE and returns round(salary, 1). -/
def add_players (pool : Nat → ℚ) (st : GMState) (rid : Nat) : GMState :=
  let status := st.pstatus rid
  let player_sal := pool rid
  let salaries := teamCaps st.team
  if status = ("ADD") then
    if SALARY - salaries - player_sal < 0 then
      { st with team := setRemove st.team, salaryDisp := round1 st.salaryDisp }
    else
      { st with team := setRemove (st.team ++ [⟨rid, player_sal, st.pstatus rid⟩]),
                salaryDisp := round1 (SALARY - salaries - player_sal) }
  else if status = ("REMOVE") then
    { st with team := setRemove (st.team.filter (fun r => r.rid ≠ rid)),
              salaryDisp := round1 (SALARY + player_sal - salaries) }
  else
    { st with team := setRemove st.team, salaryDisp := round1 st.salaryDisp }

/-- modify_button (dashboard.py lines 352-370): set every player Status
to ADD, then set it to REMOVE for every id in team_df.  It fires after
every team_datatable update, i.e. after each add_players call. -/
def modify_button (st : GMState) : GMState :=
  { st with pstatus := fun i => if i ∈ teamRids st.team then ("REMOVE") else ("ADD") }

/-- One Status-cell click: add_players followed by the modify_button
callback that its output triggers. -/
def clickStatus (pool : Nat → ℚ) (st : GMState) (rid : Nat) : GMState :=
  modify_button (add_players pool st rid)

/-- Session start: empty team_df, every Status ADD (dashboard.py
line 49), salary_display showing SALARY. -/
def initState : GMState :=
  { team := [], pstatus := fun _ => ("ADD"), salaryDisp := SALARY }

/-- Run a sequence of Status-cell clicks from the initial state. -/
def runClicks (pool : Nat → ℚ) (clicks : List Nat) : GMState :=
  clicks.foldl (clickStatus pool) initState

/-- The invariant maintained by the roster callbacks. -/
def LedgerInv (pool : Nat → ℚ) (st : GMState) : Prop :=
  (∀ r ∈ st.team, r.status = ("REMOVE")) ∧
  (teamRids st.team).Nodup ∧
  (∀ i, st.pstatus i = if i ∈ teamRids st.team then ("REMOVE") else ("ADD")) ∧
  (∀ r ∈ st.team, r.cap = pool r.rid) ∧
  st.salaryDisp = SALARY - teamCaps st.team ∧
  0 ≤ SALARY - teamCaps st.team

/-- A concrete player pool: row 0 costs 20, every other row costs 140. -/
def pool0 : Nat → ℚ := fun i => if i = 0 then 20 else 140

/-! ## data_cleaning.py -/

/-- int(re.sub(r ..., s)): the value of the digits of a string. -/
def capHitDigits (s : String) : ℕ :=
  (s.data.filter (fun c => c.isDigit)).foldl (fun n c => 10 * n + (c.toNat - 48)) 0

/-- to_millions (data_cleaning.py lines 136-145): the Cap Hit value, in
millions, stored in the column.  none models a missing raw Cap Hit (the
TypeError branch, which stores 0).  The function formats the result as
the string $X.Xm, which add_players parses back to the same one-decimal
rational; we keep the rational. -/
def to_millions (capHit : Option String) : ℚ :=
  match capHit with
  | none => round1 (0 / 1000000)
  | some s => round1 ((capHitDigits s : ℚ) / 1000000)

/-- A player record as condense_positions sees it: the raw Pos string
and the raw Cap Hit cell (none models NaN). -/
structure PlayerRec where
  pos : String
  capHit : Option String
deriving DecidableEq

/-- The position renaming of condense_positions (data_cleaning.py lines
117-131), one branch per df.loc assignment.  A string matching no branch
is returned unchanged. -/
def condense_pos (p : String) : String :=
  if p = ("OLB") ∨ p = ("ILB") ∨ p = ("MLB") then ("LB")
  else if p = ("DT") ∨ p = ("DE") then ("DL")
  else if p = ("SS") ∨ p = ("FS") then ("S")
  else if p = ("FB") ∨ p = ("RB-WR") then ("RB")
  else if p = ("QB/TE") then ("QB")
  else if p = ("G") ∨ p = ("T") ∨ p = ("C") ∨ p = ("OT") then ("OL")
  else if p = ("DB") then ("CB")
  else p

/-- condense_positions (data_cleaning.py lines 96-133): replace an empty
Cap Hit by NaN, drop rows with missing Cap Hit, drop LS rows, then apply
the position renaming. -/
def condense_positions (rows : List PlayerRec) : List PlayerRec :=
  let rows1 := rows.map (fun r => if r.capHit = some ("") then { r with capHit := none } else r)
  let rows2 := rows1.filter (fun r => r.capHit.isSome)
  let rows3 := rows2.filter (fun r => r.pos ≠ ("LS"))
  rows3.map (fun r => { r with pos := condense_pos r.pos })

/-- The canonical position set of the specification (spec glossary). -/
def canonicalPositions : List String :=
  [("QB"), ("RB"), ("WR"), ("OL"), ("TE"), ("DL"), ("LB"), ("CB"), ("S"), ("K"), ("P")]

/-- The raw position strings that condense_positions maps to a canonical
position. -/
def positionSynonyms : List String :=
  [("OLB"), ("ILB"), ("MLB"), ("DT"), ("DE"), ("SS"), ("FS"), ("FB"), ("RB-WR"),
   ("QB/TE"), ("G"), ("T"), ("C"), ("OT"), ("DB")]

/-! ## Percent-suffixed values and GM_COLS -/

/-- A raw CSV cell: a number, a non-numeric string (such as 62.5%), or
missing. -/
inductive CellVal
  | num (q : ℚ)
  | str (s : String)
  | missing
deriving DecidableEq

/-- A raw CSV column: its name and its cells. -/
structure RawColumn where
  name : String
  cells : List CellVal
deriving DecidableEq

/-- pandas dtype inference: a column is numeric when no cell is a
non-numeric string; select_dtypes(include=np.number) keeps exactly the
numeric columns. -/
def isNumericCol (c : RawColumn) : Bool :=
  c.cells.all (fun v => match v with | CellVal.str _ => false | _ => true)

/-- GM_COLS (team_projections.py lines 19-20): the numeric columns of
the player table, minus the identification columns. -/
def gmColsOf (cols : List RawColumn) : List String :=
  ((cols.filter isNumericCol).map (·.name)).filter
    (fun x => x ∉ [("Team"), ("Season"), ("Year"), ("id"), ("Age"), ("No."), ("Cap Hit"), ("Cap %")])

/-- str.rstrip with argument the percent sign: drop all trailing percent
characters. -/
def rstripPercent (s : String) : String :=
  String.mk ((s.data.reverse.dropWhile (fun c => c = '%')).reverse)

/-- The value of a digit list. -/
def digitsToNat (cs : List Char) : ℕ :=
  cs.foldl (fun n c => 10 * n + (c.toNat - 48)) 0

/-- Python float parsing of a plain decimal numeral (the only shape the
radar-chart path feeds it). -/
def parseDecimal (cs : List Char) : Option ℚ :=
  match cs.dropWhile (fun c => c.isDigit) with
  | [] => if cs = [] then none else some (digitsToNat cs)
  | c :: frac =>
    if c = '.' ∧ frac.all (fun d => d.isDigit) ∧ (cs.takeWhile (fun x => x.isDigit) ≠ [] ∨ frac ≠ []) then
      some ((digitsToNat (cs.takeWhile (fun x => x.isDigit)) : ℚ)
            + (digitsToNat frac : ℚ) / (10 : ℚ) ^ frac.length)
    else none

/-- The update_radar cell transform (dashboard.py lines 401-402 and
413-415): str.rstrip of the percent sign, astype(float), divided by
100. -/
def pctToFrac (s : String) : Option ℚ :=
  (parseDecimal (rstripPercent s).data).map (fun q => q / 100)

/-! ## Feature aggregation: team_projections.py -/

/-- AVERAGED_STATS, team_projections.py lines 17-18. -/
def AVERAGED_STATS : List String :=
  [("ANY/A"), ("AY/A"), ("Cmp%"), ("Int%"), ("Kic_KOAvg"), ("Kic_Y/Rt"), ("Lng"), ("NY/A"),
   ("Pts/G"), ("Pun_Lng"), ("Pun_Y/P"), ("Pun_Y/R"), ("Rus_Y/A"), ("Sco_Lng"), ("Sk%"), ("TD%"),
   ("Y/A"), ("Y/C"), ("Y/G"), ("Kic_Lng"), ("Rate")]

/-- The roster data frame handed to get_team_stats: its column names and
its player rows, each row a sparse map from column name to value (none
models NaN). -/
structure GmTeam where
  cols : List String
  rows : List (String → Option ℚ)

/-- The cells of one column of the roster frame. -/
def colVals (gm : GmTeam) (label : String) : List (Option ℚ) := gm.rows.map (fun r => r label)

/-- pandas Series.sum with skipna: sum of the non-missing cells, 0 when
all cells are missing. -/
def psum (xs : List (Option ℚ)) : ℚ := (xs.filterMap id).sum

/-- pandas Series.mean with skipna: mean of the non-missing cells, NaN
(none) when all cells are missing. -/
def pmean (xs : List (Option ℚ)) : Option ℚ :=
  if (xs.filterMap id).length = 0 then none
  else some ((xs.filterMap id).sum / ((xs.filterMap id).length : ℚ))

/-- get_team_stats (team_projections.py lines 62-100).  First component:
empty_cols, the historical columns absent from the roster frame, with
W-L% removed from the list.  Second component: the roster feature row,
one entry per historical column present in the roster frame; averaged
statistics use round(mean, 1) (NaN when no member has the statistic),
the others use sum multiplied by the hardcoded factor 16/11. -/
def get_team_stats (team_cols : List String) (gm : GmTeam) :
    List String × List (String × Option ℚ) :=
  ( (team_cols.filter (fun label => label ∉ gm.cols)).erase ("W-L%")
  , team_cols.filterMap (fun label =>
      if label ∈ gm.cols then
        if label ∈ AVERAGED_STATS then
          some (label, (pmean (colVals gm label)).map round1)
        else
          some (label, some (psum (colVals gm label) * (16 / 11)))
      else none) )

/-- The value get_team_stats assigns to a historical column: none when
the column is absent from the roster frame, some none when it is present
with value NaN. -/
def gm_stat (team_cols : List String) (gm : GmTeam) (label : String) : Option (Option ℚ) :=
  ((get_team_stats team_cols gm).2).lookup label

/-- The historical columns kept by analyze_team (team_projections.py
line 200): the empty columns are dropped before training and scoring. -/
def analyze_cols (hist_cols : List String) (gm : GmTeam) : List String :=
  hist_cols.filter (fun label => label ∉ (get_team_stats hist_cols gm).1)

/-- The feature columns of run_ml (team_projections.py line 157): every
kept column except the label W-L%.  Train rows and the scoring row are
sliced from the same matrix, so both use exactly this list. -/
def x_cols (hist_cols : List String) (gm : GmTeam) : List String :=
  (analyze_cols hist_cols gm).filter (fun label => label ≠ ("W-L%"))

/-- The scoring-row value of a kept column after pd.concat and
fillna(0) in analyze_team (team_projections.py lines 203-205): a column
missing from the roster row, or present with value NaN, becomes 0. -/
def gm_row_filled (hist_cols : List String) (gm : GmTeam) (label : String) : ℚ :=
  ((gm_stat hist_cols gm label).join).getD 0

/-- Modelled from the spec: the observed game count of the season being
projected (spec sections 4.3 and 6).  The source never computes it; the
games-played column G of the roster rows is the only game-count datum
available, so the observed count is read off as the largest games-played
value on the roster. -/
def observedGames (gm : GmTeam) : ℕ :=
  ((colVals gm ("G")).filterMap id).foldl (fun m q => max m (⌊q⌋.toNat)) 0

/-- Modelled from the spec: the season-length normalization of a summed
statistic, adjusted = raw_sum * (16 / observed_games), failing
explicitly when observed_games is 0 (spec section 4.3). -/
def aggregate_spec_sum (observed : ℕ) (xs : List (Option ℚ)) : Option ℚ :=
  if observed = 0 then none else some (psum xs * (16 / (observed : ℚ)))

/-- A one-player roster frame whose player has 8 games played and 11 of
the summed statistic Yds. -/
def gmG8 : GmTeam :=
  ⟨[("G"), ("Yds")],
   [fun label => if label = ("G") then some 8 else if label = ("Yds") then some 11 else none]⟩

/-- A one-player roster frame whose player has 0 games played and 11 of
the summed statistic Yds. -/
def gmG0 : GmTeam :=
  ⟨[("G"), ("Yds")],
   [fun label => if label = ("G") then some 0 else if label = ("Yds") then some 11 else none]⟩

/-- Historical columns for the games example. -/
def histColsG : List String := [("G"), ("Yds"), ("W-L%")]

/-- A one-player roster frame that has the averaged column Rate with a
missing value. -/
def gmRate : GmTeam := ⟨[("Rate")], [fun _ => none]⟩

/-- Historical columns for the Rate example. -/
def histColsRate : List String := [("Rate"), ("W-L%")]

/-- A one-player roster frame that has the summed column Yds with a
missing value. -/
def gmMissing : GmTeam := ⟨[("Yds")], [fun _ => none]⟩

/-- Historical columns for the missing-Yds example. -/
def colsYW : List String := [("Yds"), ("W-L%")]

/-! ## Win projection post-processing -/

/-- run_ml (team_projections.py line 172): wins_pred = round of the raw
regression prediction times 17. -/
def run_ml_wins (y_pred : ℚ) : ℤ := pyRound (y_pred * 17)

/-- update_machinelearning (dashboard.py line 700): clamp the win count
to the closed interval from 0 to 16. -/
def clamp_wins (w : ℤ) : ℤ := min (max w 0) 16

/-- The win count displayed for a raw regression prediction: run_ml
followed by the dashboard clamp. -/
def displayed_wins (y_pred : ℚ) : ℤ := clamp_wins (run_ml_wins y_pred)

/-! ## Helper lemmas -/

theorem pyRound_intCast (k : ℤ) : pyRound ((k : ℚ)) = k := by
  unfold pyRound
  rw [Int.floor_intCast]
  norm_num

theorem round1_tenths (k : ℤ) : round1 ((k : ℚ) / 10) = (k : ℚ) / 10 := by
  unfold round1
  rw [div_mul_cancel₀ _ (by norm_num : (10 : ℚ) ≠ 0), pyRound_intCast]

theorem round1_of_tenths {q : ℚ} (h : Tenths q) : round1 q = q := by
  obtain ⟨k, rfl⟩ := h
  exact round1_tenths k

theorem tenths_add {a b : ℚ} (ha : Tenths a) (hb : Tenths b) : Tenths (a + b) := by
  obtain ⟨j, rfl⟩ := ha
  obtain ⟨k, rfl⟩ := hb
  exact ⟨j + k, by push_cast; ring⟩

theorem tenths_sub {a b : ℚ} (ha : Tenths a) (hb : Tenths b) : Tenths (a - b) := by
  obtain ⟨j, rfl⟩ := ha
  obtain ⟨k, rfl⟩ := hb
  exact ⟨j - k, by push_cast; ring⟩

theorem tenths_sum (l : List ℚ) (h : ∀ x ∈ l, Tenths x) : Tenths l.sum := by
  induction l with
  | nil => exact ⟨0, by norm_num⟩
  | cons a l ih =>
    rw [List.sum_cons]
    exact tenths_add (h a (List.mem_cons_self a l)) (ih fun x hx => h x (List.mem_cons_of_mem a hx))

theorem tenths_salary_cap : Tenths SALARY := ⟨1500, by norm_num [SALARY]⟩

theorem teamCaps_nil : teamCaps [] = 0 := rfl

theorem teamCaps_cons (r : TeamRow) (l : List TeamRow) :
    teamCaps (r :: l) = r.cap + teamCaps l := by
  simp [teamCaps]

theorem teamCaps_append (l₁ l₂ : List TeamRow) :
    teamCaps (l₁ ++ l₂) = teamCaps l₁ + teamCaps l₂ := by
  simp [teamCaps]

theorem setRemove_status (team : List TeamRow) :
    ∀ r ∈ setRemove team, r.status = ("REMOVE") := by
  intro r hr
  obtain ⟨s, _, rfl⟩ := List.mem_map.mp hr
  rfl

theorem setRemove_id (team : List TeamRow) (h : ∀ r ∈ team, r.status = ("REMOVE")) :
    setRemove team = team := by
  unfold setRemove
  have hid : ∀ r ∈ team, (fun s => { s with status := ("REMOVE") } : TeamRow → TeamRow) r = id r := by
    intro r hr
    have := h r hr
    cases r
    simp_all
  rw [List.map_congr_left hid, List.map_id]

theorem setRemove_rids (team : List TeamRow) : teamRids (setRemove team) = teamRids team := by
  unfold setRemove teamRids
  rw [List.map_map]
  rfl

theorem setRemove_caps (team : List TeamRow) : teamCaps (setRemove team) = teamCaps team := by
  unfold setRemove teamCaps
  rw [List.map_map]
  rfl

theorem setRemove_cap_mem (team : List TeamRow) (pool : Nat → ℚ)
    (h : ∀ r ∈ team, r.cap = pool r.rid) :
    ∀ r ∈ setRemove team, r.cap = pool r.rid := by
  intro r hr
  obtain ⟨s, hs, rfl⟩ := List.mem_map.mp hr
  exact h s hs

theorem rids_filter (team : List TeamRow) (rid : Nat) :
    teamRids (team.filter (fun r => r.rid ≠ rid)) = (teamRids team).filter (fun i => i ≠ rid) := by
  unfold teamRids
  rw [List.filter_map]
  rfl

theorem teamCaps_filter (pool : Nat → ℚ) (team : List TeamRow) (rid : Nat)
    (hnd : (teamRids team).Nodup)
    (hcap : ∀ r ∈ team, r.cap = pool r.rid)
    (hmem : rid ∈ teamRids team) :
    teamCaps (team.filter (fun r => r.rid ≠ rid)) = teamCaps team - pool rid := by
  induction team with
  | nil => simp [teamRids] at hmem
  | cons r rest ih =>
    simp only [teamRids, List.map_cons, List.nodup_cons] at hnd
    obtain ⟨hr, hndr⟩ := hnd
    by_cases h : r.rid = rid
    · have hrest : rest.filter (fun x => x.rid ≠ rid) = rest := by
        rw [List.filter_eq_self]
        intro a ha
        simp only [decide_eq_true_eq]
        intro har
        exact hr (by rw [h, ← har]; exact List.mem_map_of_mem (·.rid) ha)
      rw [List.filter_cons, if_neg (by simp [h]), hrest, teamCaps_cons,
        hcap r (List.mem_cons_self r rest), h]
      ring
    · have hmem2 : rid ∈ teamRids rest := by
        rcases List.mem_cons.mp hmem with h1 | h1
        · exact absurd h1.symm h
        · exact h1
      rw [List.filter_cons, if_pos (by simp [h]), teamCaps_cons, teamCaps_cons,
        ih hndr (fun a ha => hcap a (List.mem_cons_of_mem r ha)) hmem2]
      ring

theorem teamCaps_eq_pool_sum (pool : Nat → ℚ) (team : List TeamRow)
    (hcap : ∀ r ∈ team, r.cap = pool r.rid) :
    teamCaps team = ((teamRids team).map pool).sum := by
  unfold teamCaps teamRids
  rw [List.map_map]
  congr 1
  exact List.map_congr_left (fun r hr => hcap r hr)

theorem teamRids_append (l₁ l₂ : List TeamRow) :
    teamRids (l₁ ++ l₂) = teamRids l₁ ++ teamRids l₂ := by
  simp [teamRids]

theorem ledgerInv_init (pool : Nat → ℚ) : LedgerInv pool initState := by
  refine ⟨?_, ?_, ?_, ?_, ?_, ?_⟩ <;>
    simp [initState, teamRids, teamCaps, SALARY]

theorem ledgerInv_click (pool : Nat → ℚ) (hp0 : ∀ i, 0 ≤ pool i)
    (hp10 : ∀ i, Tenths (pool i)) (st : GMState) (rid : Nat)
    (hInv : LedgerInv pool st) : LedgerInv pool (clickStatus pool st rid) := by
  obtain ⟨hstat, hnd, hps, hcap, hdisp, hnn⟩ := hInv
  have htc : Tenths (teamCaps st.team) := by
    unfold teamCaps
    apply tenths_sum
    intro x hx
    obtain ⟨r, hr, rfl⟩ := List.mem_map.mp hx
    rw [hcap r hr]
    exact hp10 r.rid
  unfold clickStatus
  by_cases hmem : rid ∈ teamRids st.team
  · -- status REMOVE: the click removes the member
    have hst : st.pstatus rid = ("REMOVE") := by rw [hps rid, if_pos hmem]
    have hne : ¬(st.pstatus rid = ("ADD")) := by rw [hst]; decide
    have hadd : add_players pool st rid =
        { st with team := setRemove (st.team.filter (fun r => r.rid ≠ rid)),
                  salaryDisp := round1 (SALARY + pool rid - teamCaps st.team) } := by
      simp only [add_players]
      rw [if_neg hne, if_pos hst]
    rw [hadd]
    have hcaps2 : teamCaps (setRemove (st.team.filter (fun r => r.rid ≠ rid)))
        = teamCaps st.team - pool rid := by
      rw [setRemove_caps, teamCaps_filter pool st.team rid hnd hcap hmem]
    refine ⟨?_, ?_, ?_, ?_, ?_, ?_⟩
    · exact setRemove_status _
    · simp only [modify_button]
      rw [setRemove_rids, rids_filter]
      exact List.Nodup.filter _ hnd
    · intro i
      rfl
    · intro r hr
      refine setRemove_cap_mem _ pool ?_ r hr
      intro a ha
      exact hcap a (List.mem_of_mem_filter ha)
    · simp only [modify_button]
      rw [hcaps2, round1_of_tenths (tenths_sub (tenths_add tenths_salary_cap (hp10 rid)) htc)]
      ring
    · simp only [modify_button]
      rw [hcaps2]
      have := hp0 rid
      linarith
  · -- status ADD
    have hst : st.pstatus rid = ("ADD") := by rw [hps rid, if_neg hmem]
    by_cases hg : SALARY - teamCaps st.team - pool rid < 0
    · -- budget exceeded: rejected, no state change in add_players
      have hadd : add_players pool st rid = st := by
        simp only [add_players]
        rw [if_pos hst, if_pos hg, setRemove_id st.team hstat, hdisp,
          round1_of_tenths (tenths_sub tenths_salary_cap htc), ← hdisp]
      rw [hadd]
      exact ⟨hstat, hnd, fun i => rfl, hcap, hdisp, hnn⟩
    · -- inserted
      have hadd : add_players pool st rid =
          { st with team := setRemove (st.team ++ [⟨rid, pool rid, st.pstatus rid⟩]),
                    salaryDisp := round1 (SALARY - teamCaps st.team - pool rid) } := by
        simp only [add_players]
        rw [if_pos hst, if_neg hg]
      rw [hadd]
      have hrids2 : teamRids (setRemove (st.team ++ [⟨rid, pool rid, st.pstatus rid⟩]))
          = teamRids st.team ++ [rid] := by
        rw [setRemove_rids, teamRids_append]
        rfl
      have hcaps2 : teamCaps (setRemove (st.team ++ [⟨rid, pool rid, st.pstatus rid⟩]))
          = teamCaps st.team + pool rid := by
        rw [setRemove_caps, teamCaps_append, teamCaps_cons, teamCaps_nil]
        ring
      refine ⟨?_, ?_, ?_, ?_, ?_, ?_⟩
      · exact setRemove_status _
      · simp only [modify_button]
        rw [hrids2]
        simp [List.nodup_append, hnd, hmem]
      · intro i
        rfl
      · intro r hr
        refine setRemove_cap_mem _ pool ?_ r hr
        intro a ha
        rcases List.mem_append.mp ha with h1 | h1
        · exact hcap a h1
        · rcases List.mem_singleton.mp h1 with rfl
          rfl
      · simp only [modify_button]
        rw [hcaps2,
          round1_of_tenths (tenths_sub (tenths_sub tenths_salary_cap htc) (hp10 rid))]
        ring
      · simp only [modify_button]
        rw [hcaps2]
        push_neg at hg
        linarith

theorem ledgerInv_foldl (pool : Nat → ℚ) (hp0 : ∀ i, 0 ≤ pool i)
    (hp10 : ∀ i, Tenths (pool i)) :
    ∀ (clicks : List Nat) (st : GMState), LedgerInv pool st →
      LedgerInv pool (clicks.foldl (clickStatus pool) st) := by
  intro clicks
  induction clicks with
  | nil => intro st h; exact h
  | cons c rest ih =>
    intro st h
    exact ih (clickStatus pool st c) (ledgerInv_click pool hp0 hp10 st c h)

theorem ledgerInv_run (pool : Nat → ℚ) (hp0 : ∀ i, 0 ≤ pool i)
    (hp10 : ∀ i, Tenths (pool i)) (clicks : List Nat) :
    LedgerInv pool (runClicks pool clicks) :=
  ledgerInv_foldl pool hp0 hp10 clicks initState (ledgerInv_init pool)

theorem click_reject_eq (pool : Nat → ℚ) (hp10 : ∀ i, Tenths (pool i))
    (st : GMState) (rid : Nat) (hInv : LedgerInv pool st)
    (hA : st.pstatus rid = ("ADD")) (hg : st.salaryDisp - pool rid < 0) :
    clickStatus pool st rid = st := by
  obtain ⟨hstat, hnd, hps, hcap, hdisp, hnn⟩ := hInv
  have htc : Tenths (teamCaps st.team) := by
    unfold teamCaps
    apply tenths_sum
    intro x hx
    obtain ⟨r, hr, rfl⟩ := List.mem_map.mp hx
    rw [hcap r hr]
    exact hp10 r.rid
  have hg2 : SALARY - teamCaps st.team - pool rid < 0 := by
    rw [hdisp] at hg
    linarith
  have hadd : add_players pool st rid = st := by
    simp only [add_players]
    rw [if_pos hA, if_pos hg2, setRemove_id st.team hstat, hdisp,
      round1_of_tenths (tenths_sub tenths_salary_cap htc), ← hdisp]
  have hfun : (fun i => if i ∈ teamRids st.team then ("REMOVE") else ("ADD")) = st.pstatus := by
    funext i
    rw [hps i]
  unfold clickStatus
  rw [hadd]
  unfold modify_button
  rw [hfun]

/-- Claim C1: for every sequence of add and remove clicks, the displayed
remaining budget equals SALARY minus the sum of the Cap Hit values of
the current team members and is never negative, and a click that would
overdraw the budget (an ADD whose cost exceeds the remaining budget) is
rejected with no change at all to the dashboard state. -/
theorem c1_budget_invariant (pool : Nat → ℚ) (hp0 : ∀ i, 0 ≤ pool i)
    (hp10 : ∀ i, Tenths (pool i)) (clicks : List Nat) :
    ((runClicks pool clicks).salaryDisp = SALARY - teamCaps (runClicks pool clicks).team
      ∧ 0 ≤ (runClicks pool clicks).salaryDisp)
    ∧ ∀ rid, (runClicks pool clicks).pstatus rid = ("ADD") →
        (runClicks pool clicks).salaryDisp - pool rid < 0 →
        clickStatus pool (runClicks pool clicks) rid = runClicks pool clicks := by
  have hInv := ledgerInv_run pool hp0 hp10 clicks
  obtain ⟨hstat, hnd, hps, hcap, hdisp, hnn⟩ := hInv
  refine ⟨⟨hdisp, by rw [hdisp]; exact hnn⟩, ?_⟩
  intro rid hA hg
  exact click_reject_eq pool hp10 (runClicks pool clicks) rid
    ⟨hstat, hnd, hps, hcap, hdisp, hnn⟩ hA hg

theorem c1_budget_invariant_witness :
    ((runClicks pool0 [0]).salaryDisp = SALARY - teamCaps (runClicks pool0 [0]).team
      ∧ 0 ≤ (runClicks pool0 [0]).salaryDisp)
    ∧ clickStatus pool0 (runClicks pool0 [0]) 1 = runClicks pool0 [0] := by
  have hp0 : ∀ i, 0 ≤ pool0 i := by
    intro i
    unfold pool0
    split <;> norm_num
  have hp10 : ∀ i, Tenths (pool0 i) := by
    intro i
    unfold pool0
    split
    · exact ⟨200, by norm_num⟩
    · exact ⟨1400, by norm_num⟩
  obtain ⟨h1, h2⟩ := c1_budget_invariant pool0 hp0 hp10 [0]
  refine ⟨h1, h2 1 ?_ ?_⟩
  · simp [runClicks, clickStatus, add_players, modify_button, initState, pool0,
      setRemove, SALARY, teamCaps, teamRids]
    norm_num [round1, pyRound]
  · have hdisp : (runClicks pool0 [0]).salaryDisp = 130 := by
      simp [runClicks, clickStatus, add_players, modify_button, initState, pool0,
        setRemove, SALARY, teamCaps, teamRids]
      norm_num [round1, pyRound]
    rw [hdisp]
    norm_num [pool0]

theorem team_click_removes (pool : Nat → ℚ) (st : GMState) (rid : Nat)
    (hInv : LedgerInv pool st) (hmem : rid ∈ teamRids st.team) :
    teamRids (clickStatus pool st rid).team = (teamRids st.team).filter (fun i => i ≠ rid) := by
  obtain ⟨hstat, hnd, hps, hcap, hdisp, hnn⟩ := hInv
  have hst : st.pstatus rid = ("REMOVE") := by rw [hps rid, if_pos hmem]
  have hne : ¬(st.pstatus rid = ("ADD")) := by rw [hst]; decide
  have hadd : add_players pool st rid =
      { st with team := setRemove (st.team.filter (fun r => r.rid ≠ rid)),
                salaryDisp := round1 (SALARY + pool rid - teamCaps st.team) } := by
    simp only [add_players]
    rw [if_neg hne, if_pos hst]
  unfold clickStatus
  rw [hadd]
  simp only [modify_button]
  rw [setRemove_rids, rids_filter]

/-- Claim C10: after every successful roster mutation, every row of the
team table has Status REMOVE, each player row id appears in the team
table at most once, and a Status click on a current team member is
interpreted as a removal (its player_df Status reads REMOVE and the
click drops exactly its rows from the team), never as a second
addition. -/
theorem c10_team_rows_remove (pool : Nat → ℚ) (hp0 : ∀ i, 0 ≤ pool i)
    (hp10 : ∀ i, Tenths (pool i)) (clicks : List Nat) :
    (∀ r ∈ (runClicks pool clicks).team, r.status = ("REMOVE"))
    ∧ (teamRids (runClicks pool clicks).team).Nodup
    ∧ ∀ rid ∈ teamRids (runClicks pool clicks).team,
        (runClicks pool clicks).pstatus rid = ("REMOVE")
        ∧ teamRids (clickStatus pool (runClicks pool clicks) rid).team
            = (teamRids (runClicks pool clicks).team).filter (fun i => i ≠ rid) := by
  have hInv := ledgerInv_run pool hp0 hp10 clicks
  obtain ⟨hstat, hnd, hps, hcap, hdisp, hnn⟩ := hInv
  refine ⟨hstat, hnd, ?_⟩
  intro rid hmem
  constructor
  · rw [hps rid, if_pos hmem]
  · exact team_click_removes pool (runClicks pool clicks) rid
      ⟨hstat, hnd, hps, hcap, hdisp, hnn⟩ hmem

theorem c10_team_rows_remove_witness :
    (teamRids (runClicks pool0 [0]).team).Nodup
    ∧ (runClicks pool0 [0]).pstatus 0 = ("REMOVE")
    ∧ teamRids (clickStatus pool0 (runClicks pool0 [0]) 0).team
        = (teamRids (runClicks pool0 [0]).team).filter (fun i => i ≠ 0) := by
  have hp0 : ∀ i, 0 ≤ pool0 i := by
    intro i
    unfold pool0
    split <;> norm_num
  have hp10 : ∀ i, Tenths (pool0 i) := by
    intro i
    unfold pool0
    split
    · exact ⟨200, by norm_num⟩
    · exact ⟨1400, by norm_num⟩
  obtain ⟨h1, h2, h3⟩ := c10_team_rows_remove pool0 hp0 hp10 [0]
  have hmem : 0 ∈ teamRids (runClicks pool0 [0]).team := by
    simp [runClicks, clickStatus, add_players, modify_button, initState, pool0,
      setRemove, SALARY, teamCaps, teamRids]
    norm_num [round1, pyRound]
  exact ⟨h2, (h3 0 hmem).1, (h3 0 hmem).2⟩

/-- Claim C9 (amended): the displayed remaining budget is a function of
the current membership only.  Two click sequences that end with the same
team row ids display the same remaining budget, so repeated add and
remove cycles introduce no cumulative rounding drift beyond the single
one-decimal rounding applied to each salary at data ingestion. -/
theorem c9_no_cumulative_drift (pool : Nat → ℚ) (hp0 : ∀ i, 0 ≤ pool i)
    (hp10 : ∀ i, Tenths (pool i)) (cl cl' : List Nat)
    (h : teamRids (runClicks pool cl).team = teamRids (runClicks pool cl').team) :
    (runClicks pool cl).salaryDisp = (runClicks pool cl').salaryDisp := by
  obtain ⟨_, _, _, hcap1, hdisp1, _⟩ := ledgerInv_run pool hp0 hp10 cl
  obtain ⟨_, _, _, hcap2, hdisp2, _⟩ := ledgerInv_run pool hp0 hp10 cl'
  rw [hdisp1, hdisp2, teamCaps_eq_pool_sum pool _ hcap1, teamCaps_eq_pool_sum pool _ hcap2, h]

theorem c9_no_cumulative_drift_witness :
    (runClicks pool0 [0]).salaryDisp = (runClicks pool0 [1, 1, 0]).salaryDisp := by
  have hp0 : ∀ i, 0 ≤ pool0 i := by
    intro i
    unfold pool0
    split <;> norm_num
  have hp10 : ∀ i, Tenths (pool0 i) := by
    intro i
    unfold pool0
    split
    · exact ⟨200, by norm_num⟩
    · exact ⟨1400, by norm_num⟩
  refine c9_no_cumulative_drift pool0 hp0 hp10 [0] [1, 1, 0] ?_
  simp [runClicks, clickStatus, add_players, modify_button, initState, pool0,
    setRemove, SALARY, teamCaps, teamRids]
  norm_num [round1, pyRound]

/-- Claim C9, counterexample to the claim as stated: salaries are
rounded to one decimal at data ingestion by to_millions, not only at
presentation boundaries.  The raw Cap Hit 1234567 dollars is stored as
1.2 million, and the budget arithmetic then runs on 1.2, not on the full
precision value 1.234567. -/
theorem c9_rounding_at_ingestion :
    to_millions (some ("$1,234,567")) = 6/5
    ∧ ¬(to_millions (some ("$1,234,567")) = 1234567 / 1000000)
    ∧ ¬((runClicks (fun _ => to_millions (some ("$1,234,567"))) [0]).salaryDisp
        = SALARY - 1234567 / 1000000) := by
  have hd : capHitDigits ("$1,234,567") = 1234567 := by decide
  have hv : to_millions (some ("$1,234,567")) = 6/5 := by
    simp only [to_millions, hd]
    norm_num [round1, pyRound]
  refine ⟨hv, by rw [hv]; norm_num, ?_⟩
  have hrun : (runClicks (fun _ => to_millions (some ("$1,234,567"))) [0]).salaryDisp = 744/5 := by
    simp [runClicks, clickStatus, add_players, modify_button, initState,
      setRemove, SALARY, teamCaps, teamRids, hv]
    norm_num [round1, pyRound]
  rw [hrun]
  norm_num [SALARY]

/-- Claim C2, counterexample to the claim as stated: the code multiplies
the predicted win fraction by 17, not by the 16-game season length.  At
win fraction 2/5 the displayed count is 7 while round(2/5 * 16) clamped
is 6. -/
theorem c2_wins_counterexample :
    ¬(displayed_wins (2/5) = clamp_wins (pyRound ((2/5 : ℚ) * 16))) := by
  norm_num [displayed_wins, clamp_wins, run_ml_wins, pyRound, min_def, max_def]

/-- Claim C2 (amended): the produced season-win count is
round(win_fraction * 17), then clamped to the interval from 0 to 16 by
the dashboard; the multiplier is 17, not the 16 stated by the claim, and
16 would change the displayed value. -/
theorem c2_wins_formula :
    (∀ y : ℚ, displayed_wins y = min (max (pyRound (y * 17)) 0) 16)
    ∧ ∃ y : ℚ, ¬(displayed_wins y = min (max (pyRound (y * 16)) 0) 16) := by
  constructor
  · intro y
    rfl
  · refine ⟨2/5, ?_⟩
    norm_num [displayed_wins, clamp_wins, run_ml_wins, pyRound, min_def, max_def]

/-- Claim C3: whatever the sign or magnitude of the raw regression
prediction, the win projection returned to the dashboard caller is an
integer in the closed interval from 0 to 16. -/
theorem c3_wins_in_range (y_pred : ℚ) :
    0 ≤ displayed_wins y_pred ∧ displayed_wins y_pred ≤ 16 := by
  unfold displayed_wins clamp_wins
  exact ⟨le_min (le_max_right _ _) (by norm_num), min_le_right _ _⟩

/-- Claim C8, counterexample to the claim as stated: a record whose raw
position WR2 is neither a mapped synonym nor a canonical position is
kept with its raw position unchanged; condense_positions raises no
error and drops nothing. -/
theorem c8_unknown_position_passthrough :
    condense_positions [⟨("WR2"), some ("$1m")⟩] = [⟨("WR2"), some ("$1m")⟩]
    ∧ ("WR2") ∉ canonicalPositions
    ∧ ("WR2") ∉ positionSynonyms := by
  refine ⟨by decide, by decide, by decide⟩

/-- Claim C8 (amended): condense_positions keeps every record that has a
non-empty Cap Hit and a position other than LS, applying the synonym
renaming to its position; a raw position outside the synonym table
passes through unchanged, and no error is raised. -/
theorem c8_amended_passthrough (rows : List PlayerRec) (r : PlayerRec)
    (hmem : r ∈ rows) (hcap : r.capHit.isSome) (hcap2 : ¬(r.capHit = some ("")))
    (hpos : ¬(r.pos = ("LS"))) :
    (⟨condense_pos r.pos, r.capHit⟩ : PlayerRec) ∈ condense_positions rows
    ∧ ∀ p : String, p ∉ positionSynonyms → condense_pos p = p := by
  constructor
  · unfold condense_positions
    have h1 : r ∈ rows.map (fun s => if s.capHit = some ("") then { s with capHit := none } else s) := by
      have h : (if r.capHit = some ("") then { r with capHit := none } else r)
          ∈ rows.map (fun s => if s.capHit = some ("") then { s with capHit := none } else s) :=
        List.mem_map_of_mem (fun s => if s.capHit = some ("") then { s with capHit := none } else s) hmem
      rwa [if_neg hcap2] at h
    have h2 : r ∈ (rows.map (fun s => if s.capHit = some ("") then { s with capHit := none } else s)).filter
        (fun s => s.capHit.isSome) :=
      List.mem_filter.mpr ⟨h1, hcap⟩
    have h3 : r ∈ ((rows.map (fun s => if s.capHit = some ("") then { s with capHit := none } else s)).filter
        (fun s => s.capHit.isSome)).filter (fun s => s.pos ≠ ("LS")) :=
      List.mem_filter.mpr ⟨h2, by simpa using hpos⟩
    exact List.mem_map_of_mem _ h3
  · intro p hp
    unfold condense_pos
    split_ifs with h1 h2 h3 h4 h5 h6 h7
    · rcases h1 with h | h | h <;> (subst h; exact absurd (by decide) hp)
    · rcases h2 with h | h <;> (subst h; exact absurd (by decide) hp)
    · rcases h3 with h | h <;> (subst h; exact absurd (by decide) hp)
    · rcases h4 with h | h <;> (subst h; exact absurd (by decide) hp)
    · subst h5
      exact absurd (by decide) hp
    · rcases h6 with h | h | h | h <;> (subst h; exact absurd (by decide) hp)
    · subst h7
      exact absurd (by decide) hp
    · rfl

theorem c8_amended_passthrough_witness :
    (⟨condense_pos ("OLB"), some ("$2m")⟩ : PlayerRec) ∈ condense_positions [⟨("OLB"), some ("$2m")⟩]
    ∧ condense_pos ("XX") = ("XX") := by
  have h := c8_amended_passthrough [⟨("OLB"), some ("$2m")⟩] ⟨("OLB"), some ("$2m")⟩
    (by decide) (by decide) (by decide) (by decide)
  exact ⟨h.1, h.2 ("XX") (by decide)⟩

theorem rstripPercent_append (s : String) : rstripPercent (s ++ ("%")) = rstripPercent s := by
  have hdata : (s ++ ("%")).data = s.data ++ ['%'] := rfl
  simp [rstripPercent, hdata]

/-- Claim C6, counterexample to the claim as stated: a statistic column
whose cells are percent-suffixed strings has non-numeric dtype, so
GM_COLS excludes it and the aggregation and model never consume it (as a
fraction or otherwise); the strip-percent-and-divide conversion exists
only in the radar display path, where 62.5% becomes 0.625. -/
theorem c6_pct_excluded_from_model :
    gmColsOf [⟨("Cmp%"), [CellVal.str ("62.5%")]⟩, ⟨("Yds"), [CellVal.num 100]⟩] = [("Yds")]
    ∧ pctToFrac ("62.5%") = some (5/8) := by
  constructor
  · decide
  · have h : rstripPercent ("62.5%") = ("62.5") := by decide
    unfold pctToFrac
    rw [h]
    have h2 : ("62.5").data = ['6', '2', '.', '5'] := by decide
    rw [h2]
    have h3 : (['6', '2', '.', '5'].dropWhile (fun c => c.isDigit)) = ['.', '5'] := by decide
    simp only [parseDecimal, h3]
    rw [if_pos (by decide)]
    have h4 : digitsToNat (['6', '2', '.', '5'].takeWhile (fun x => x.isDigit)) = 62 := by decide
    have h5 : digitsToNat ['5'] = 5 := by decide
    rw [h4, h5]
    norm_num [Option.map]

/-- Claim C6 (amended): appending a percent sign to a value does not
change what the radar-path conversion parses (the conversion strips it
and divides by 100), but this conversion is applied only in the display
path; a column containing percent-suffixed string values is non-numeric
and is excluded from GM_COLS, the feature set of the aggregation and of
the model. -/
theorem c6_pct_conversion_is_display_only :
    (∀ s : String, pctToFrac (s ++ ("%")) = pctToFrac s)
    ∧ ∀ cols : List RawColumn, (cols.map (·.name)).Nodup →
        ∀ c ∈ cols, (∃ t, CellVal.str t ∈ c.cells) → c.name ∉ gmColsOf cols := by
  constructor
  · intro s
    unfold pctToFrac
    rw [rstripPercent_append]
  · intro cols hnd c hc hex habs
    obtain ⟨t, ht⟩ := hex
    unfold gmColsOf at habs
    have h1 := List.mem_of_mem_filter habs
    obtain ⟨c', hc', hname⟩ := List.mem_map.mp h1
    have hc2 : c' ∈ cols := List.mem_of_mem_filter hc'
    have hnum : isNumericCol c' = true := List.of_mem_filter hc'
    have hceq : c' = c := List.inj_on_of_nodup_map hnd hc2 hc hname
    subst hceq
    unfold isNumericCol at hnum
    rw [List.all_eq_true] at hnum
    have hcell := hnum (CellVal.str t) ht
    simp at hcell

theorem c6_pct_conversion_witness :
    pctToFrac (("62.5") ++ ("%")) = pctToFrac ("62.5")
    ∧ ("Cmp%") ∉ gmColsOf [⟨("Cmp%"), [CellVal.str ("62.5%")]⟩, ⟨("Yds"), [CellVal.num 100]⟩] := by
  obtain ⟨h1, h2⟩ := c6_pct_conversion_is_display_only
  exact ⟨h1 ("62.5"),
    h2 [⟨("Cmp%"), [CellVal.str ("62.5%")]⟩, ⟨("Yds"), [CellVal.num 100]⟩] (by decide)
      ⟨("Cmp%"), [CellVal.str ("62.5%")]⟩ (by decide) ⟨("62.5%"), by decide⟩⟩

theorem lookup_stats_aux (gm : GmTeam) (label : String) (h2 : label ∈ gm.cols) :
    ∀ team_cols : List String, label ∈ team_cols →
      (team_cols.filterMap (fun l =>
        if l ∈ gm.cols then
          if l ∈ AVERAGED_STATS then some (l, (pmean (colVals gm l)).map round1)
          else some (l, some (psum (colVals gm l) * (16 / 11)))
        else none)).lookup label
      = some (if label ∈ AVERAGED_STATS then (pmean (colVals gm label)).map round1
              else some (psum (colVals gm label) * (16 / 11))) := by
  intro tc h1
  induction tc with
  | nil => cases h1
  | cons c rest ih =>
    rw [List.filterMap_cons]
    by_cases hc : c = label
    · subst hc
      rw [if_pos h2]
      by_cases ha : c ∈ AVERAGED_STATS
      · rw [if_pos ha, if_pos ha]
        simp [List.lookup]
      · rw [if_neg ha, if_neg ha]
        simp [List.lookup]
    · have h1b : label ∈ rest := by
        rcases List.mem_cons.mp h1 with h | h
        · exact absurd h.symm hc
        · exact h
      have hbeq : (label == c) = false := beq_eq_false_iff_ne.mpr (fun h => hc h.symm)
      by_cases hcg : c ∈ gm.cols
      · rw [if_pos hcg]
        by_cases ha : c ∈ AVERAGED_STATS
        · rw [if_pos ha]
          simp only [List.lookup, hbeq]
          exact ih h1b
        · rw [if_neg ha]
          simp only [List.lookup, hbeq]
          exact ih h1b
      · rw [if_neg hcg]
        exact ih h1b

theorem gm_stat_eq (gm : GmTeam) (label : String) (h2 : label ∈ gm.cols)
    (team_cols : List String) (h1 : label ∈ team_cols) :
    gm_stat team_cols gm label
      = some (if label ∈ AVERAGED_STATS then (pmean (colVals gm label)).map round1
              else some (psum (colVals gm label) * (16 / 11))) := by
  unfold gm_stat get_team_stats
  exact lookup_stats_aux gm label h2 team_cols h1

/-- Claim C5 (amended): for every summed (non-averaged) statistic
present in both the historical table and the roster frame, the roster
team value is the skip-missing raw sum multiplied by the hardcoded
constant 16/11; the observed game count of the projected season is fixed
at 11 in the source and is never read from the data. -/
theorem c5_sum_normalization (team_cols : List String) (gm : GmTeam) (label : String)
    (h1 : label ∈ team_cols) (h2 : label ∈ gm.cols) (h3 : label ∉ AVERAGED_STATS) :
    gm_stat team_cols gm label = some (some (psum (colVals gm label) * (16 / 11))) := by
  rw [gm_stat_eq gm label h2 team_cols h1, if_neg h3]

theorem c5_sum_normalization_witness :
    gm_stat histColsG gmG8 ("Yds") = some (some (psum (colVals gmG8 ("Yds")) * (16 / 11))) :=
  c5_sum_normalization histColsG gmG8 ("Yds") (by decide) (by decide) (by decide)

/-- Claim C5, counterexample to the claim as stated: for a roster whose
season has 8 observed games the code still multiplies by 16/11 and
produces 16 where the claimed formula yields 22, and for a roster with 0
observed games the code produces a value instead of failing. -/
theorem c5_hardcoded_normalization :
    gm_stat histColsG gmG8 ("Yds") = some (some 16)
    ∧ observedGames gmG8 = 8
    ∧ aggregate_spec_sum (observedGames gmG8) (colVals gmG8 ("Yds")) = some 22
    ∧ ¬((16 : ℚ) = 22)
    ∧ observedGames gmG0 = 0
    ∧ aggregate_spec_sum (observedGames gmG0) (colVals gmG0 ("Yds")) = none
    ∧ gm_stat histColsG gmG0 ("Yds") = some (some 16) := by
  have hne : ¬(("Yds") = ("G")) := by decide
  have hobs8 : observedGames gmG8 = 8 := by
    simp [observedGames, colVals, gmG8]
  have hobs0 : observedGames gmG0 = 0 := by
    simp [observedGames, colVals, gmG0]
  refine ⟨?_, hobs8, ?_, by norm_num, hobs0, ?_, ?_⟩
  · rw [gm_stat_eq gmG8 ("Yds") (by decide) histColsG (by decide), if_neg (by decide)]
    norm_num [colVals, gmG8, psum, hne, List.filterMap_cons, List.filterMap_nil, id_eq]
  · rw [hobs8]
    norm_num [aggregate_spec_sum, colVals, gmG8, psum, hne, List.filterMap_cons, List.filterMap_nil, id_eq]
  · rw [hobs0]
    simp [aggregate_spec_sum]
  · rw [gm_stat_eq gmG0 ("Yds") (by decide) histColsG (by decide), if_neg (by decide)]
    norm_num [colVals, gmG0, psum, hne, List.filterMap_cons, List.filterMap_nil, id_eq]

/-- Claim C4 (amended): analyze_team keeps exactly the historical
columns that the roster frame also has, plus the label column W-L%
(empty_cols are dropped from training and scoring alike, which share one
matrix and hence one column list); any remaining missing entry of the
scoring row, such as an averaged statistic with no non-missing
contributor, is replaced by 0 by fillna(0) and the projection proceeds.
No feature-mismatch failure exists in the code. -/
theorem c4_analyze_cols (hist_cols : List String) (gm : GmTeam) (hnd : hist_cols.Nodup) :
    (∀ label, label ∈ analyze_cols hist_cols gm ↔
        label ∈ hist_cols ∧ (label ∈ gm.cols ∨ label = ("W-L%")))
    ∧ ∀ label, gm_stat hist_cols gm label = some none →
        gm_row_filled hist_cols gm label = 0 := by
  constructor
  · intro label
    unfold analyze_cols get_team_stats
    have hfn : (hist_cols.filter (fun l => l ∉ gm.cols)).Nodup := List.Nodup.filter _ hnd
    simp only [List.mem_filter, decide_eq_true_eq]
    constructor
    · rintro ⟨hh, hne⟩
      refine ⟨hh, ?_⟩
      by_contra hcon
      push_neg at hcon
      exact hne ((hfn.mem_erase_iff).mpr
        ⟨hcon.2, List.mem_filter.mpr ⟨hh, by simpa using hcon.1⟩⟩)
    · rintro ⟨hh, hor⟩
      refine ⟨hh, ?_⟩
      intro hmem
      obtain ⟨hne, hmem2⟩ := (hfn.mem_erase_iff).mp hmem
      have hnotg := (List.mem_filter.mp hmem2).2
      simp only [decide_eq_true_eq] at hnotg
      rcases hor with h | h
      · exact hnotg h
      · exact hne h
  · intro label h
    unfold gm_row_filled
    rw [h]
    rfl

theorem c4_analyze_cols_witness :
    (("Rate") ∈ analyze_cols histColsRate gmRate ↔
        ("Rate") ∈ histColsRate ∧ (("Rate") ∈ gmRate.cols ∨ ("Rate") = ("W-L%")))
    ∧ gm_row_filled histColsRate gmRate ("Rate") = 0 := by
  obtain ⟨h1, h2⟩ := c4_analyze_cols histColsRate gmRate (by decide)
  refine ⟨h1 ("Rate"), h2 ("Rate") ?_⟩
  rw [gm_stat_eq gmRate ("Rate") (by decide) histColsRate (by decide), if_pos (by decide)]
  simp [pmean, colVals, gmRate]

/-- Claim C4, counterexample to the claim as stated: the averaged
statistic Rate is a scoring-time feature column, the roster value for it
is missing (no member has it), and the pipeline zero-fills it and
proceeds to score, instead of failing with a feature-mismatch error. -/
theorem c4_zero_fill_proceeds :
    ("Rate") ∈ x_cols histColsRate gmRate
    ∧ gm_stat histColsRate gmRate ("Rate") = some none
    ∧ gm_row_filled histColsRate gmRate ("Rate") = 0 := by
  have hstat : gm_stat histColsRate gmRate ("Rate") = some none := by
    rw [gm_stat_eq gmRate ("Rate") (by decide) histColsRate (by decide), if_pos (by decide)]
    simp [pmean, colVals, gmRate]
  refine ⟨?_, hstat, by unfold gm_row_filled; rw [hstat]; rfl⟩
  unfold x_cols
  rw [List.mem_filter]
  exact ⟨by decide, by decide⟩

/-- Claim C7 (amended): a statistic present as a column of the roster
frame but missing for every member is not dropped from the roster
feature vector: a summed statistic is included with value 0 (pandas sum
of an all-missing column), and an averaged statistic is included with a
missing placeholder (NaN, later zero-filled by analyze_team). -/
theorem c7_all_missing_not_dropped (team_cols : List String) (gm : GmTeam) (label : String)
    (h1 : label ∈ team_cols) (h2 : label ∈ gm.cols)
    (h0 : ∀ v ∈ colVals gm label, v = none) :
    gm_stat team_cols gm label
      = some (if label ∈ AVERAGED_STATS then none else some 0) := by
  have hfm : (colVals gm label).filterMap id = [] := by
    rw [List.filterMap_eq_nil_iff]
    intro v hv
    rw [h0 v hv]
    rfl
  rw [gm_stat_eq gm label h2 team_cols h1]
  by_cases ha : label ∈ AVERAGED_STATS
  · rw [if_pos ha, if_pos ha]
    simp [pmean, hfm]
  · rw [if_neg ha, if_neg ha]
    simp [psum, hfm]

theorem c7_all_missing_witness :
    gm_stat colsYW gmMissing ("Yds") = some (some 0) := by
  have h := c7_all_missing_not_dropped colsYW gmMissing ("Yds") (by decide) (by decide)
    (by intro v hv; simpa [colVals, gmMissing] using hv)
  rw [if_neg (by decide)] at h
  exact h

/-- Claim C7, counterexample to the claim as stated: for a roster whose
only member has the summed statistic Yds missing, the aggregated vector
still contains Yds, reported as 0, rather than dropping it. -/
theorem c7_all_missing_included_as_zero :
    colVals gmMissing ("Yds") = [none]
    ∧ gm_stat colsYW gmMissing ("Yds") = some (some 0) := by
  constructor
  · rfl
  · rw [gm_stat_eq gmMissing ("Yds") (by decide) colsYW (by decide), if_neg (by decide)]
    simp [psum, colVals, gmMissing]
